import Mathlib

/-!
Verification of the runtime core of a Jellyfin API client library.

The Lean definitions below are a shallow embedding of the Python sources:
`timesync_manager.py`, `http.py`, `ws_client.py`, `keepalive.py`,
`connection_manager.py` and `keepalive.py`.  Timestamps and timedeltas are
modelled as rationals, machine state is threaded explicitly, and fallible
operations return `Option`/sum types.
-/

namespace Jellyfin

/-! ### Time synchronisation (`timesync_manager.py`) -/

def number_of_tracked_measurements : Nat := 8

def polling_interval_greedy : Nat := 1

def polling_interval_low_profile : Nat := 60

def greedy_ping_count : Nat := 3

/-- Four timestamps from one round trip (`Measurement` in
`timesync_manager.py`).  Timestamps are integers (e.g. microseconds since an
epoch); offsets and pings, which the code halves, are rationals. -/
structure Measurement where
  request_sent : Int
  request_received : Int
  response_sent : Int
  response_received : Int
deriving DecidableEq, Repr

/-- `Measurement.get_offset`: time offset from the server. -/
def Measurement.get_offset (m : Measurement) : Rat :=
  (((m.request_received - m.request_sent) + (m.response_sent - m.response_received) : Int) : Rat) / 2

/-- `Measurement.get_delay`: round-trip delay. -/
def Measurement.get_delay (m : Measurement) : Int :=
  (m.response_received - m.request_sent) - (m.response_sent - m.request_received)

/-- `Measurement.get_ping`: ping time. -/
def Measurement.get_ping (m : Measurement) : Rat :=
  (m.get_delay : Rat) / 2

/-- The mutable state of `TimeSyncManager` (threading-related fields such as
`poller` and the subscriber set are omitted; the claims are about the
measurement window and the polling interval). -/
structure TimeSyncManager where
  polling_interval : Nat
  pings : Nat
  measurement : Option Measurement
  measurements : List Measurement
deriving Repr

/-- State built by `TimeSyncManager.__init__`. -/
def TimeSyncManager.init : TimeSyncManager :=
  { polling_interval := polling_interval_greedy
    pings := 0
    measurement := none
    measurements := [] }

/-- Python's `min(xs, key=lambda x: x.get_delay())`: the first element of the
list attaining the minimum delay, `none` on the empty list. -/
def minByDelay : List Measurement → Option Measurement
  | [] => none
  | x :: xs =>
    some (xs.foldl (fun best a => if a.get_delay < best.get_delay then a else best) x)

/-- `TimeSyncManager.update_time_offset`: append the measurement, evict the
oldest one when the window exceeds its capacity, and reselect the minimum
delay measurement. -/
def TimeSyncManager.update_time_offset (t : TimeSyncManager) (m : Measurement) :
    TimeSyncManager :=
  let ms := t.measurements ++ [m]
  let ms := if number_of_tracked_measurements < ms.length then ms.tail else ms
  { t with measurements := ms, measurement := minByDelay ms }

/-- `TimeSyncManager.get_time_offset`. -/
def TimeSyncManager.get_time_offset (t : TimeSyncManager) : Rat :=
  match t.measurement with
  | some m => m.get_offset
  | none => 0

/-- `TimeSyncManager.get_ping`. -/
def TimeSyncManager.get_ping (t : TimeSyncManager) : Rat :=
  match t.measurement with
  | some m => m.get_ping
  | none => 0

/-- `TimeSyncManager.server_date_to_local`. -/
def TimeSyncManager.server_date_to_local (t : TimeSyncManager) (server : Rat) : Rat :=
  server - t.get_time_offset

/-- `TimeSyncManager.local_date_to_server`. -/
def TimeSyncManager.local_date_to_server (t : TimeSyncManager) (l : Rat) : Rat :=
  l + t.get_time_offset

/-- One successful iteration of `_TimeSyncThread.run`: record the probe's
measurement, then either switch to the low-profile interval (when
`pings > greedy_ping_count`) or count one more greedy ping. -/
def TimeSyncManager.run_iteration (t : TimeSyncManager) (m : Measurement) :
    TimeSyncManager :=
  let t := t.update_time_offset m
  if greedy_ping_count < t.pings then
    { t with polling_interval := polling_interval_low_profile }
  else
    { t with pings := t.pings + 1 }

/-- A run of successive successful probe iterations. -/
def TimeSyncManager.run_iterations (t : TimeSyncManager) (ms : List Measurement) :
    TimeSyncManager :=
  ms.foldl TimeSyncManager.run_iteration t

/-- `TimeSyncManager.force_update`: back to greedy polling with a zeroed ping
count (the stop/start of the poller thread carries no further state). -/
def TimeSyncManager.force_update (t : TimeSyncManager) : TimeSyncManager :=
  { t with polling_interval := polling_interval_greedy, pings := 0 }

/-- A measurement whose delay is exactly `d` (send everything at time 0 and
receive the response at time `d`). -/
def measOfDelay (d : Int) : Measurement :=
  { request_sent := 0, request_received := 0, response_sent := 0, response_received := d }

lemma measOfDelay_get_delay (d : Int) : (measOfDelay d).get_delay = d := by
  simp [measOfDelay, Measurement.get_delay]

lemma foldl_minBy_mem (xs : List Measurement) :
    ∀ x : Measurement,
      xs.foldl (fun best a => if a.get_delay < best.get_delay then a else best) x ∈ x :: xs := by
  induction xs with
  | nil => intro x; simp
  | cons y ys ih =>
    intro x
    simp only [List.foldl_cons]
    by_cases hc : y.get_delay < x.get_delay
    · rw [if_pos hc]
      exact List.mem_cons_of_mem _ (ih y)
    · rw [if_neg hc]
      rcases List.mem_cons.mp (ih x) with h | h
      · rw [h]; exact List.mem_cons_self _ _
      · exact List.mem_cons_of_mem _ (List.mem_cons_of_mem _ h)

lemma foldl_minBy_le (xs : List Measurement) :
    ∀ x : Measurement, ∀ z ∈ x :: xs,
      (xs.foldl (fun best a => if a.get_delay < best.get_delay then a else best) x).get_delay
        ≤ z.get_delay := by
  induction xs with
  | nil => intro x z hz; simp at hz; simp [hz]
  | cons y ys ih =>
    intro x z hz
    simp only [List.foldl_cons]
    have hself := ih (if y.get_delay < x.get_delay then y else x) _ (List.mem_cons_self _ _)
    have hx : (if y.get_delay < x.get_delay then y else x).get_delay ≤ x.get_delay := by
      by_cases hc : y.get_delay < x.get_delay
      · rw [if_pos hc]; exact le_of_lt hc
      · rw [if_neg hc]
    have hy : (if y.get_delay < x.get_delay then y else x).get_delay ≤ y.get_delay := by
      by_cases hc : y.get_delay < x.get_delay
      · rw [if_pos hc]
      · rw [if_neg hc]; exact le_of_not_lt hc
    rcases List.mem_cons.mp hz with h | h
    · rw [h]; exact le_trans hself hx
    · rcases List.mem_cons.mp h with h2 | h2
      · rw [h2]; exact le_trans hself hy
      · exact ih _ z (List.mem_cons_of_mem _ h2)

lemma minByDelay_spec (l : List Measurement) (hl : l ≠ []) :
    ∃ sel, minByDelay l = some sel ∧ sel ∈ l ∧
      ∀ x ∈ l, sel.get_delay ≤ x.get_delay := by
  match l with
  | [] => exact absurd rfl hl
  | x :: xs =>
    refine ⟨_, rfl, foldl_minBy_mem xs x, ?_⟩
    exact foldl_minBy_le xs x

lemma update_time_offset_measurements (t : TimeSyncManager) (m : Measurement) :
    (t.update_time_offset m).measurements =
      if number_of_tracked_measurements < (t.measurements ++ [m]).length
        then (t.measurements ++ [m]).tail else t.measurements ++ [m] := rfl

lemma update_time_offset_measurement (t : TimeSyncManager) (m : Measurement) :
    (t.update_time_offset m).measurement = minByDelay (t.update_time_offset m).measurements := rfl

lemma update_time_offset_measurements_ne_nil (t : TimeSyncManager) (m : Measurement) :
    (t.update_time_offset m).measurements ≠ [] := by
  rw [update_time_offset_measurements]
  split_ifs with h
  · rw [← List.length_pos, List.length_tail]
    simp only [number_of_tracked_measurements, List.length_append, List.length_singleton] at h ⊢
    omega
  · simp

lemma update_time_offset_pings (t : TimeSyncManager) (m : Measurement) :
    (t.update_time_offset m).pings = t.pings := rfl

lemma update_time_offset_polling_interval (t : TimeSyncManager) (m : Measurement) :
    (t.update_time_offset m).polling_interval = t.polling_interval := rfl

lemma run_iterations_append_singleton (t : TimeSyncManager) (l : List Measurement)
    (m : Measurement) :
    t.run_iterations (l ++ [m]) = (t.run_iterations l).run_iteration m := by
  simp [TimeSyncManager.run_iterations, List.foldl_append]

/-- Ping count and polling interval of the manager after `k` successful probe
iterations from the initial state: the ping counter saturates at
`greedy_ping_count + 1 = 4` and the interval switches to low profile from the
fifth probe on. -/
lemma run_iterations_pings_interval (ms : List Measurement) :
    (TimeSyncManager.init.run_iterations ms).pings = min ms.length 4
    ∧ (TimeSyncManager.init.run_iterations ms).polling_interval
        = if 5 ≤ ms.length then polling_interval_low_profile else polling_interval_greedy := by
  induction ms using List.reverseRecOn with
  | nil => simp [TimeSyncManager.run_iterations, TimeSyncManager.init]
  | append_singleton l m ih =>
    rw [run_iterations_append_singleton]
    simp only [TimeSyncManager.run_iteration]
    rcases ih with ⟨hp, hi⟩
    by_cases hc : greedy_ping_count < ((TimeSyncManager.init.run_iterations l).update_time_offset m).pings
    · rw [if_pos hc]
      rw [update_time_offset_pings, hp] at hc
      simp only [greedy_ping_count] at hc
      constructor
      · simp only [update_time_offset_pings, hp, List.length_append, List.length_singleton]
        omega
      · simp only [List.length_append, List.length_singleton]
        rw [if_pos (by omega)]
    · rw [if_neg hc]
      rw [update_time_offset_pings, hp] at hc
      simp only [greedy_ping_count] at hc
      constructor
      · simp only [update_time_offset_pings, hp, List.length_append, List.length_singleton]
        omega
      · simp only [update_time_offset_polling_interval, hi, List.length_append,
          List.length_singleton]
        have h4 : l.length ≤ 3 := by omega
        rw [if_neg (by omega), if_neg (by omega)]

/-- C3: after every update with a new `Measurement` the stored window holds at
most 8 measurements (a 9th arrival evicts the oldest first), the selected
measurement is one with minimum delay over the window, and for the delays
`[5,3,8,1,9,2,7,4]` the selection is the measurement with delay 1. -/
theorem timesync_window_selection (t : TimeSyncManager) (m : Measurement)
    (h : t.measurements.length ≤ number_of_tracked_measurements) :
    (t.update_time_offset m).measurements.length ≤ number_of_tracked_measurements
    ∧ (∃ sel, (t.update_time_offset m).measurement = some sel
        ∧ sel ∈ (t.update_time_offset m).measurements
        ∧ ∀ x ∈ (t.update_time_offset m).measurements, sel.get_delay ≤ x.get_delay)
    ∧ (TimeSyncManager.init.run_iterations
        (([5,3,8,1,9,2,7,4] : List Int).map measOfDelay)).measurement.map
          Measurement.get_delay = some 1
    ∧ (TimeSyncManager.init.run_iterations
        ((([5,3,8,1,9,2,7,4] : List Int).map measOfDelay) ++ [measOfDelay 6])).measurements
      = (([3,8,1,9,2,7,4] : List Int).map measOfDelay) ++ [measOfDelay 6] := by
  refine ⟨?_, ?_, by decide, by decide⟩
  · rw [update_time_offset_measurements]
    split_ifs with hc
    · rw [List.length_tail]
      simp only [number_of_tracked_measurements, List.length_append,
        List.length_singleton] at h ⊢
      omega
    · simp only [number_of_tracked_measurements, List.length_append,
        List.length_singleton] at h hc ⊢
      omega
  · rw [update_time_offset_measurement]
    exact minByDelay_spec _ (update_time_offset_measurements_ne_nil t m)

/-- Witness for C3 at the initial manager and a concrete measurement. -/
theorem timesync_window_selection_witness :
    (TimeSyncManager.init.update_time_offset (measOfDelay 0)).measurements.length
      ≤ number_of_tracked_measurements :=
  (timesync_window_selection TimeSyncManager.init (measOfDelay 0) (by decide)).1

/-- C4 counterexample: after 3 (and even 4) successful greedy probes the
polling interval is still the greedy 1-second interval, not the low-profile
60-second one. -/
theorem adaptive_polling_three_probes_no_switch :
    (TimeSyncManager.init.run_iterations (List.replicate 3 (measOfDelay 0))).polling_interval = 1
    ∧ (TimeSyncManager.init.run_iterations (List.replicate 4 (measOfDelay 0))).polling_interval = 1
    ∧ (1 : Nat) ≠ polling_interval_low_profile := by decide

/-- C4 (amended): the poller starts at the greedy 1-second interval; it
switches permanently to the 60-second low-profile interval only after the
fifth successful greedy probe (the `pings > greedy_ping_count` comparison is
strict and the counter is incremented after the check), and `force_update`
restores the greedy interval and zeroes the probe count. -/
theorem adaptive_polling_switchover (ms : List Measurement) (t : TimeSyncManager) :
    TimeSyncManager.init.polling_interval = polling_interval_greedy
    ∧ (ms.length ≤ 4 →
        (TimeSyncManager.init.run_iterations ms).polling_interval = polling_interval_greedy)
    ∧ (5 ≤ ms.length →
        (TimeSyncManager.init.run_iterations ms).polling_interval = polling_interval_low_profile)
    ∧ t.force_update.polling_interval = polling_interval_greedy
    ∧ t.force_update.pings = 0 := by
  refine ⟨rfl, ?_, ?_, rfl, rfl⟩
  · intro h
    rw [(run_iterations_pings_interval ms).2, if_neg (by omega)]
  · intro h
    rw [(run_iterations_pings_interval ms).2, if_pos h]

/-- Witness for the amended C4: five successful probes from the initial state
leave the poller on the low-profile interval. -/
theorem adaptive_polling_switchover_witness :
    (TimeSyncManager.init.run_iterations
      (List.replicate 5 (measOfDelay 0))).polling_interval = polling_interval_low_profile :=
  (adaptive_polling_switchover (List.replicate 5 (measOfDelay 0)) TimeSyncManager.init).2.2.1
    (by decide)

/-- C9: while no probe has been recorded (no current measurement selected),
`get_time_offset` and `get_ping` are the zero timedelta and the server/local
date conversions are the identity. -/
theorem no_measurement_identity (t : TimeSyncManager) (h : t.measurement = none) (ts : Rat) :
    t.get_time_offset = 0 ∧ t.get_ping = 0
    ∧ t.server_date_to_local ts = ts ∧ t.local_date_to_server ts = ts := by
  have ho : t.get_time_offset = 0 := by simp [TimeSyncManager.get_time_offset, h]
  have hp : t.get_ping = 0 := by simp [TimeSyncManager.get_ping, h]
  refine ⟨ho, hp, ?_, ?_⟩
  · simp [TimeSyncManager.server_date_to_local, ho]
  · simp [TimeSyncManager.local_date_to_server, ho]

/-- Witness for C9 at the freshly initialised manager. -/
theorem no_measurement_identity_witness :
    TimeSyncManager.init.get_time_offset = 0
    ∧ TimeSyncManager.init.get_ping = 0
    ∧ TimeSyncManager.init.server_date_to_local 5 = 5
    ∧ TimeSyncManager.init.local_date_to_server 5 = 5 :=
  no_measurement_identity TimeSyncManager.init rfl 5

/-! ### HTTP request pipeline (`http.py`) -/

/-- Outcome of one attempt of the underlying `requests` call inside the
`while True` loop of `HTTP.request`. -/
inductive Attempt where
  | response (status : Nat) (hasAppErrorCode : Bool)
  | connError
  | readTimeout
  | missingSchema
deriving DecidableEq, Repr

/-- Kinds of `HTTPException` raised by `HTTP.request`. -/
inductive ExcKind where
  | serverUnreachable
  | readTimeout
  | accessRestricted
  | unauthorized
  | missingSchema
  | statusCode (code : Nat)
deriving DecidableEq, Repr

/-- An unhandled Python exception propagating out of the pipeline. -/
inductive PyExc where
  | typeError
deriving DecidableEq, Repr

/-- What `HTTP.request` does in the end. -/
inductive ReqOutcome where
  | ok (status : Nat)
  | noData
  | exn (kind : ExcKind)
  | uncaught (e : PyExc)
  | pending
deriving DecidableEq, Repr

/-- The request descriptor (the `data` dictionary): the two entries the retry
loop consumes destructively.  `type` is the HTTP verb (popped with default
`"GET"` on every iteration); `retry` is the retry budget (popped before the
loop with default 5). -/
structure Descriptor where
  type : Option String
  retry : Option Nat
deriving DecidableEq, Repr

/-- `data.pop('type', "GET")`: yields the verb and the descriptor without its
`type` entry. -/
def Descriptor.popType (d : Descriptor) : String × Descriptor :=
  (d.type.getD "GET", { d with type := none })

/-- Token state touched by `ConnectionManager.revoke_token`: the access token
on the stored server record and the config's `auth.token`. -/
structure TokenState where
  serverAccessToken : Option String
  authToken : Option String
deriving DecidableEq, Repr

/-- `ConnectionManager.revoke_token` (`connection_manager.py` lines 56-63).
Its first statement subscripts the manager instance itself,
`self['server']['AccessToken'] = None`, but `ConnectionManager` defines no
`__getitem__`, so the call raises `TypeError` before modifying any state.
The repository's own test `test_revoke_token`
(`tests/test_connection_manager.py`) instead expects the stored server access
tokens and the config token to be cleared. -/
def revoke_token (_st : TokenState) : Except PyExc TokenState :=
  Except.error PyExc.typeError

/-- Trace of one `HTTP.request` run over a list of attempt outcomes: the
final outcome, the HTTP verbs used for the successive attempts, the number of
1-second backoff sleeps, and the resulting token state. -/
structure LoopTrace where
  outcome : ReqOutcome
  methods : List String
  sleeps : Nat
  tokens : TokenState
deriving DecidableEq, Repr

/-- The `while True` retry loop of `HTTP.request` (`http.py` lines 113-203),
embedded over a trace of attempt outcomes.  `retry` is the already-popped
budget; the descriptor is threaded through the iterations because
`data.pop('type', "GET")` mutates it on every pass. -/
def requestLoop (st : TokenState) : List Attempt → Nat → Descriptor → LoopTrace
  | [], _, _ => { outcome := .pending, methods := [], sleeps := 0, tokens := st }
  | a :: rest, retry, d =>
    let m := d.popType.1
    let d := d.popType.2
    match a with
    | .connError =>
      if retry ≠ 0 then
        let t := requestLoop st rest (retry - 1) d
        { t with methods := m :: t.methods, sleeps := t.sleeps + 1 }
      else
        { outcome := .exn .serverUnreachable, methods := [m], sleeps := 0, tokens := st }
    | .readTimeout =>
      if retry ≠ 0 then
        let t := requestLoop st rest (retry - 1) d
        { t with methods := m :: t.methods, sleeps := t.sleeps + 1 }
      else
        { outcome := .exn .readTimeout, methods := [m], sleeps := 0, tokens := st }
    | .missingSchema =>
      { outcome := .exn .missingSchema, methods := [m], sleeps := 0, tokens := st }
    | .response status hasAppErrorCode =>
      if status < 400 then
        { outcome := .ok status, methods := [m], sleeps := 0, tokens := st }
      else if status = 401 then
        if hasAppErrorCode then
          { outcome := .exn .accessRestricted, methods := [m], sleeps := 0, tokens := st }
        else
          match revoke_token st with
          | Except.ok st2 =>
            { outcome := .exn .unauthorized, methods := [m], sleeps := 0, tokens := st2 }
          | Except.error e =>
            { outcome := .uncaught e, methods := [m], sleeps := 0, tokens := st }
      else if status = 500 then
        { outcome := .noData, methods := [m], sleeps := 0, tokens := st }
      else if status = 502 ∧ retry ≠ 0 then
        let t := requestLoop st rest (retry - 1) d
        { t with methods := m :: t.methods, sleeps := t.sleeps + 1 }
      else
        { outcome := .exn (.statusCode status), methods := [m], sleeps := 0, tokens := st }

/-- `HTTP.request`: pops the retry budget (`data.pop('retry', 5)`) and enters
the retry loop. -/
def HTTP.request (d : Descriptor) (st : TokenState) (attempts : List Attempt) : LoopTrace :=
  requestLoop st attempts (d.retry.getD 5) { d with retry := none }

/-- C1 counterexample: with the default budget of 5, a request whose first 5
attempts fail with a connection error and whose 6th attempt succeeds is
served successfully — `ServerUnreachable` is not raised, contrary to the
claim that a success on a 6th internal attempt is impossible. -/
theorem retry_sixth_attempt_succeeds :
    (HTTP.request { type := some "GET", retry := none }
      { serverAccessToken := some "t", authToken := some "t" }
      (List.replicate 5 .connError ++ [.response 200 false])).outcome = .ok 200
    ∧ ReqOutcome.ok 200 ≠ .exn .serverUnreachable := by decide

/-- C1 (amended): with the default budget of 5, connection failures are
retried with a fixed 1-second backoff; the budget is exhausted after 6
consecutive connection-failing attempts (the first plus 5 retries, with 5
sleeps between them), at which point `ServerUnreachable` is raised, no
further attempt is made and the token state is untouched; but a request that
fails 5 times may still succeed on its 6th internal attempt. -/
theorem retry_budget_exhaustion (d : Descriptor) (st : TokenState) (rest : List Attempt)
    (hd : d.retry = none) :
    (HTTP.request d st (List.replicate 6 .connError ++ rest)).outcome = .exn .serverUnreachable
    ∧ (HTTP.request d st (List.replicate 6 .connError ++ rest)).methods.length = 6
    ∧ (HTTP.request d st (List.replicate 6 .connError ++ rest)).sleeps = 5
    ∧ (HTTP.request d st (List.replicate 6 .connError ++ rest)).tokens = st := by
  simp [HTTP.request, hd, requestLoop, Descriptor.popType]

/-- Witness for the amended C1: six straight connection errors under the
default budget end in `ServerUnreachable` after exactly 6 attempts and 5
backoff sleeps. -/
theorem retry_budget_exhaustion_witness :
    (HTTP.request { type := some "GET", retry := none }
      { serverAccessToken := some "t", authToken := some "t" }
      (List.replicate 6 .connError ++ ([] : List Attempt))).outcome
        = .exn .serverUnreachable
    ∧ (HTTP.request { type := some "GET", retry := none }
      { serverAccessToken := some "t", authToken := some "t" }
      (List.replicate 6 .connError ++ ([] : List Attempt))).methods.length = 6
    ∧ (HTTP.request { type := some "GET", retry := none }
      { serverAccessToken := some "t", authToken := some "t" }
      (List.replicate 6 .connError ++ ([] : List Attempt))).sleeps = 5
    ∧ (HTTP.request { type := some "GET", retry := none }
      { serverAccessToken := some "t", authToken := some "t" }
      (List.replicate 6 .connError ++ ([] : List Attempt))).tokens
        = { serverAccessToken := some "t", authToken := some "t" } :=
  retry_budget_exhaustion { type := some "GET", retry := none }
    { serverAccessToken := some "t", authToken := some "t" } [] rfl

/-- C2 evaluated on the code: a 401 response carrying the
`X-Application-Error-Code` header raises `AccessRestricted` and leaves the
stored tokens untouched, as claimed; but a 401 without the header does not
clear the stored token and does not raise `Unauthorized` — the `TypeError`
raised inside `revoke_token` (the `ConnectionManager` instance is not
subscriptable) propagates out of the pipeline with the token state
unchanged. -/
theorem unauthorized_revoke_type_error (retry : Nat) (d : Descriptor) (st : TokenState)
    (rest : List Attempt) :
    ((requestLoop st (.response 401 true :: rest) retry d).outcome = .exn .accessRestricted
      ∧ (requestLoop st (.response 401 true :: rest) retry d).tokens = st)
    ∧ ((requestLoop st (.response 401 false :: rest) retry d).outcome
          = .uncaught .typeError
      ∧ (requestLoop st (.response 401 false :: rest) retry d).tokens = st) := by
  simp [requestLoop, revoke_token]

lemma requestLoop_methods_all_get (st : TokenState) :
    ∀ (attempts : List Attempt) (retry : Nat) (d : Descriptor), d.type = none →
      ∀ m ∈ (requestLoop st attempts retry d).methods, m = "GET" := by
  intro attempts
  induction attempts with
  | nil =>
    intro retry d hd m hm
    simp [requestLoop] at hm
  | cons a rest ih =>
    intro retry d hd m hm
    have hpop1 : d.popType.1 = "GET" := by simp [Descriptor.popType, hd]
    have hpop2 : d.popType.2.type = none := rfl
    cases a with
    | connError =>
      simp only [requestLoop] at hm
      split_ifs at hm
      · rcases List.mem_cons.mp hm with h | h
        · rw [h, hpop1]
        · exact ih _ _ hpop2 m h
      · rw [List.mem_singleton.mp hm, hpop1]
    | readTimeout =>
      simp only [requestLoop] at hm
      split_ifs at hm
      · rcases List.mem_cons.mp hm with h | h
        · rw [h, hpop1]
        · exact ih _ _ hpop2 m h
      · rw [List.mem_singleton.mp hm, hpop1]
    | missingSchema =>
      simp only [requestLoop] at hm
      rw [List.mem_singleton.mp hm, hpop1]
    | response status hasAppErrorCode =>
      simp only [requestLoop, revoke_token] at hm
      split_ifs at hm
      all_goals first
        | (rcases List.mem_cons.mp hm with h | h
           · rw [h, hpop1]
           · exact ih _ _ hpop2 m h)
        | rw [List.mem_singleton.mp hm, hpop1]

lemma requestLoop_methods_tail_get (st : TokenState) (a : Attempt) (rest : List Attempt)
    (retry : Nat) (d : Descriptor) :
    ∀ m ∈ (requestLoop st (a :: rest) retry d).methods.tail, m = "GET" := by
  have hpop2 : d.popType.2.type = none := rfl
  intro m hm
  cases a with
  | connError =>
    simp only [requestLoop] at hm
    split_ifs at hm
    · exact requestLoop_methods_all_get st rest _ _ hpop2 m (by simpa using hm)
    · simp at hm
  | readTimeout =>
    simp only [requestLoop] at hm
    split_ifs at hm
    · exact requestLoop_methods_all_get st rest _ _ hpop2 m (by simpa using hm)
    · simp at hm
  | missingSchema =>
    simp only [requestLoop] at hm
    simp at hm
  | response status hasAppErrorCode =>
    simp only [requestLoop, revoke_token] at hm
    split_ifs at hm
    all_goals first
      | exact requestLoop_methods_all_get st rest _ _ hpop2 m (by simpa using hm)
      | simp at hm

/-- C10: the first pass through the retry loop pops the `type` entry from the
descriptor, so every attempt after the first — in particular every retry
after a connection error, read timeout or 502 — is issued with HTTP verb
`GET` regardless of the original method. -/
theorem retries_use_get (d : Descriptor) (st : TokenState) (attempts : List Attempt)
    (retry : Nat) (m : String)
    (hm : m ∈ (requestLoop st attempts retry d).methods.tail) : m = "GET" := by
  cases attempts with
  | nil => simp [requestLoop] at hm
  | cons a rest => exact requestLoop_methods_tail_get st a rest retry d m hm

/-- Witness for C10: a POST descriptor whose first two attempts fail with
connection errors makes its retries with verb GET. -/
theorem retries_use_get_witness : "GET" = "GET" :=
  retries_use_get { type := some "POST", retry := none }
    { serverAccessToken := none, authToken := none }
    [.connError, .connError, .response 200 false] 5 "GET" (by decide)

/-! ### WebSocket client (`ws_client.py`) and keepalive ticker (`keepalive.py`) -/

/-- State of one `KeepAlive` ticker thread (`keepalive.py`). -/
structure KeepAliveState where
  timeout : Nat
  halt : Bool
deriving DecidableEq, Repr

/-- `KeepAlive.stop`: sets the halt flag (the join is thread bookkeeping). -/
def KeepAliveState.stop (k : KeepAliveState) : KeepAliveState :=
  { k with halt := true }

/-- The period of the `KeepAlive.run` loop: it wakes up every `timeout/2`
time units (`self.trigger.wait(self.timeout/2)`; the trigger event is never
set anywhere in the code, so the wait always times out). -/
def KeepAliveState.period (k : KeepAliveState) : Rat :=
  (k.timeout : Rat) / 2

/-- `KeepAlive.run` observed for `n` wake-ups: a ticker that has not been
halted sends one `KeepAlive` frame per wake-up (one every `period` time
units); a halted ticker sends nothing. -/
def KeepAliveState.run (k : KeepAliveState) (n : Nat) : List String :=
  if k.halt then [] else List.replicate n "KeepAlive"

/-- A decoded inbound websocket frame: its `MessageType`, the numeric `Data`
payload carried by `ForceKeepAlive`, and the optional `MessageId`. -/
structure WsMessage where
  messageType : String
  data : Nat
  messageId : Option Nat
deriving DecidableEq, Repr

/-- The `WSClient` state relevant to message handling: the running keepalive
ticker, the tickers stopped so far, the frames sent on the socket, the seen
message ids, and the message types forwarded to the client callback. -/
structure WSClientState where
  keepalive : Option KeepAliveState
  stopped_keepalives : List KeepAliveState
  sent : List String
  message_ids : List Nat
  callbacks : List String
deriving DecidableEq, Repr

/-- The body of `WSClient.on_message` after deduplication: `ForceKeepAlive`
immediately sends a `KeepAlive` frame, stops the previous ticker if any, and
starts a fresh ticker with the server-supplied timeout; `KeepAlive` is only
logged; anything else is forwarded to the callback. -/
def WSClientState.handle (st : WSClientState) (msg : WsMessage) : WSClientState :=
  if msg.messageType = "ForceKeepAlive" then
    let st := { st with sent := st.sent ++ ["KeepAlive"] }
    let st :=
      match st.keepalive with
      | some k =>
        { st with stopped_keepalives := st.stopped_keepalives ++ [k.stop], keepalive := none }
      | none => st
    { st with keepalive := some { timeout := msg.data, halt := false } }
  else if msg.messageType = "KeepAlive" then st
  else { st with callbacks := st.callbacks ++ [msg.messageType] }

/-- `WSClient.on_message`: a message bearing an already-seen id is dropped;
otherwise its id is recorded and the message is handled. -/
def WSClientState.on_message (st : WSClientState) (msg : WsMessage) : WSClientState :=
  match msg.messageId with
  | some i =>
    if i ∈ st.message_ids then st
    else WSClientState.handle { st with message_ids := st.message_ids ++ [i] } msg
  | none => WSClientState.handle st msg

/-- C5: receiving `{"MessageType":"ForceKeepAlive","Data":T}` immediately
sends one `KeepAlive` frame, halts any previously running keepalive ticker,
and starts a new ticker whose period is `T/2` (15 for `T = 30`) and which
sends one `KeepAlive` per period until halted. -/
theorem force_keepalive_handling (st : WSClientState) (msg : WsMessage)
    (ht : msg.messageType = "ForceKeepAlive") (hid : msg.messageId = none) :
    (st.on_message msg).sent = st.sent ++ ["KeepAlive"]
    ∧ (st.on_message msg).keepalive = some { timeout := msg.data, halt := false }
    ∧ (∀ k, st.keepalive = some k →
        (st.on_message msg).stopped_keepalives = st.stopped_keepalives ++ [k.stop]
        ∧ k.stop.halt = true)
    ∧ (∀ n, KeepAliveState.run { timeout := msg.data, halt := false } n
        = List.replicate n "KeepAlive")
    ∧ (∀ n, (KeepAliveState.stop { timeout := msg.data, halt := false }).run n = [])
    ∧ KeepAliveState.period { timeout := msg.data, halt := false } = (msg.data : Rat) / 2
    ∧ KeepAliveState.period { timeout := 30, halt := false } = 15 := by
  refine ⟨?_, ?_, ?_, ?_, ?_, rfl, by norm_num [KeepAliveState.period]⟩
  · cases hk : st.keepalive with
    | none => simp [WSClientState.on_message, WSClientState.handle, hid, ht, hk]
    | some k => simp [WSClientState.on_message, WSClientState.handle, hid, ht, hk]
  · cases hk : st.keepalive with
    | none => simp [WSClientState.on_message, WSClientState.handle, hid, ht, hk]
    | some k => simp [WSClientState.on_message, WSClientState.handle, hid, ht, hk]
  · intro k hk
    constructor
    · simp [WSClientState.on_message, WSClientState.handle, hid, ht, hk]
    · rfl
  · intro n
    simp [KeepAliveState.run]
  · intro n
    simp [KeepAliveState.run, KeepAliveState.stop]

/-- Witness for C5 at a concrete state with a running ticker. -/
theorem force_keepalive_handling_witness :
    (WSClientState.on_message
      { keepalive := some { timeout := 20, halt := false }, stopped_keepalives := [],
        sent := [], message_ids := [], callbacks := [] }
      { messageType := "ForceKeepAlive", data := 30, messageId := none }).sent
      = [] ++ ["KeepAlive"] :=
  (force_keepalive_handling
    { keepalive := some { timeout := 20, halt := false }, stopped_keepalives := [],
      sent := [], message_ids := [], callbacks := [] }
    { messageType := "ForceKeepAlive", data := 30, messageId := none } rfl rfl).1

/-- The reconnect loop of `WSClient.run` (`ws_client.py` lines 79-92),
counting how many times `run_forever` serves the socket and returns.  `stop`
and `gstop` are `self.stop` and `self.global_stop` on entry to the loop
check; each entry of `flags` is the value of `self.stop` observed when the
corresponding serving of the socket returns (set to true by a concurrent
`stop_client` call). -/
def run_loop (stop gstop : Bool) : List Bool → Nat
  | [] => 0
  | f :: rest =>
    if stop || gstop then 0
    else 1 + (if !f then 0 else run_loop f gstop rest)

lemma run_loop_stop_left (gstop : Bool) (flags : List Bool) :
    run_loop true gstop flags = 0 := by
  cases flags <;> simp [run_loop]

/-- C6 counterexample: with neither stop flag set and the socket serving
returning twice with `stop()` never called, the run loop serves only once —
it does not reconnect. -/
theorem websocket_no_reconnect :
    run_loop false false [false, false] = 1 ∧ ¬ 2 ≤ run_loop false false [false, false] := by
  decide

/-- C6 (amended): after the socket serving returns the run loop exits
regardless of whether `stop()` was called — if the stop flag is unset the
`if not self.stop: break` fires, and if it is set the loop condition fails —
so the loop serves at most once and never reconnects; the initial stop flags
prevent even the first serving. -/
theorem websocket_serve_at_most_once (stop gstop : Bool) (flags : List Bool) :
    run_loop stop gstop flags ≤ 1
    ∧ ((stop || gstop) = true → run_loop stop gstop flags = 0)
    ∧ (stop = false → gstop = false → flags ≠ [] → run_loop stop gstop flags = 1) := by
  refine ⟨?_, ?_, ?_⟩
  · cases flags with
    | nil => simp [run_loop]
    | cons f rest =>
      by_cases h : (stop || gstop) = true
      · simp [run_loop, h]
      · cases f with
        | false => simp [run_loop, h]
        | true => simp [run_loop, h, run_loop_stop_left]
  · intro h
    cases flags <;> simp [run_loop, h]
  · intro hs hg hne
    cases flags with
    | nil => exact absurd rfl hne
    | cons f rest =>
      cases f with
      | false => simp [run_loop, hs, hg]
      | true => simp [run_loop, hs, hg, run_loop_stop_left]

/-- Witness for the amended C6: one completed serving with no stop requested
yields exactly one serve. -/
theorem websocket_serve_at_most_once_witness :
    run_loop false false [false] = 1 :=
  (websocket_serve_at_most_once false false [false]).2.2 rfl rfl (by decide)

/-! ### Address normalisation (`ConnectionManager._normalize_address`) -/

/-- A parsed URL as far as `_normalize_address` inspects it: scheme, host and
port (the inputs the claim is about have no path, query or userinfo). -/
structure Url where
  scheme : Option (List Char)
  host : List Char
  port : Option Nat
deriving DecidableEq, Repr

/-- Split a character list at the first occurrence of `sep`. -/
def splitFirst (sep : Char) : List Char → Option (List Char × List Char)
  | [] => none
  | c :: rest =>
    if c = sep then some ([], rest)
    else (splitFirst sep rest).map fun p => (c :: p.1, p.2)

/-- Split a character list at the first occurrence of `"://"`, yielding the
scheme and the remainder. -/
def findScheme : List Char → Option (List Char × List Char)
  | [] => none
  | c :: rest =>
    if c = ':' ∧ rest.take 2 = ['/', '/'] then some ([], rest.drop 2)
    else (findScheme rest).map fun p => (c :: p.1, p.2)

/-- Python's `'://' in address`. -/
def containsSchemeSep (cs : List Char) : Bool :=
  (findScheme cs).isSome

/-- Split a character list at its last colon (how the port is separated from
the host). -/
def splitLastColon (cs : List Char) : Option (List Char × List Char) :=
  match splitFirst ':' cs.reverse with
  | none => none
  | some (p1, p2) => some (p2.reverse, p1.reverse)

/-- Parse a nonempty all-digit character list as a decimal number. -/
def digitsToNat? (cs : List Char) : Option Nat :=
  if cs ≠ [] ∧ cs.all Char.isDigit then
    some (cs.foldl (fun n c => 10 * n + (c.toNat - 48)) 0)
  else none

/-- Host/port split of the part following the scheme. -/
def parseHostPort (scheme : Option (List Char)) (rest : List Char) : Url :=
  match splitLastColon rest with
  | some (h, p) =>
    match digitsToNat? p with
    | some n => { scheme := scheme, host := h, port := some n }
    | none => { scheme := scheme, host := rest, port := none }
  | none => { scheme := scheme, host := rest, port := none }

/-- `urllib3.util.parse_url`, restricted to the `[scheme://]host[:port]`
grammar that `_normalize_address`'s inputs use. -/
def parse_url (cs : List Char) : Url :=
  match findScheme cs with
  | some (s, r) => parseHostPort (some s) r
  | none => parseHostPort none cs

def httpScheme : List Char := "http".data

def httpsScheme : List Char := "https".data

/-- The three normalisation steps `_normalize_address` performs on the parsed
URL: default a missing scheme to `http`, then strip the scheme's default
port (80 for `http`, 443 for `https`). -/
def normalizeUrl (u : Url) : Url :=
  let u := if u.scheme = none then { u with scheme := some httpScheme } else u
  let u := if u.scheme = some httpScheme ∧ u.port = some 80 then { u with port := none } else u
  if u.scheme = some httpsScheme ∧ u.port = some 443 then { u with port := none } else u

/-- `url.url`: render the (normalised) URL back to characters. -/
def Url.url (u : Url) : List Char :=
  (match u.scheme with
   | some s => s ++ ':' :: '/' :: '/' :: []
   | none => []) ++
  u.host ++
  (match u.port with
   | some p => ':' :: (Nat.repr p).data
   | none => [])

/-- Python's `str.strip`: drop whitespace from both ends. -/
def stripChars (cs : List Char) : List Char :=
  ((cs.dropWhile Char.isWhitespace).reverse.dropWhile Char.isWhitespace).reverse

/-- `ConnectionManager._normalize_address`: prefix `http://` when no scheme
separator occurs in the address, then parse the stripped address, default
the scheme, strip default ports and render. -/
def ConnectionManager.normalize_address (address : String) : String :=
  let cs := address.data
  let cs := if containsSchemeSep cs then cs else "http://".data ++ cs
  let u := parse_url (stripChars cs)
  String.mk (normalizeUrl u).url

lemma splitFirst_not_mem {sep : Char} : ∀ {l : List Char}, sep ∉ l → splitFirst sep l = none := by
  intro l
  induction l with
  | nil => intro _; rfl
  | cons c rest ih =>
    intro h
    have hc : ¬ c = sep := fun e => h (e ▸ List.mem_cons_self c rest)
    have hr := ih (fun hm => h (List.mem_cons_of_mem c hm))
    simp [splitFirst, hc, hr]

lemma splitFirst_append {sep : Char} : ∀ {pre : List Char} (post : List Char), sep ∉ pre →
    splitFirst sep (pre ++ sep :: post) = some (pre, post) := by
  intro pre
  induction pre with
  | nil => intro post _; simp [splitFirst]
  | cons c rest ih =>
    intro post h
    have hc : ¬ c = sep := fun e => h (e ▸ List.mem_cons_self c rest)
    have hr := ih post (fun hm => h (List.mem_cons_of_mem c hm))
    simp [splitFirst, hc, hr]

lemma findScheme_not_mem : ∀ {l : List Char}, (':' : Char) ∉ l → findScheme l = none := by
  intro l
  induction l with
  | nil => intro _; rfl
  | cons c rest ih =>
    intro h
    have hc : ¬ c = ':' := fun e => h (e ▸ List.mem_cons_self c rest)
    have hr := ih (fun hm => h (List.mem_cons_of_mem c hm))
    simp [findScheme, hc, hr]

lemma findScheme_append : ∀ (pre rest : List Char), (':' : Char) ∉ pre →
    findScheme (pre ++ ':' :: '/' :: '/' :: rest) = some (pre, rest) := by
  intro pre
  induction pre with
  | nil => intro rest _; simp [findScheme]
  | cons c pre2 ih =>
    intro rest h
    have hc : ¬ c = ':' := fun e => h (e ▸ List.mem_cons_self c pre2)
    have hr := ih rest (fun hm => h (List.mem_cons_of_mem c hm))
    simp [findScheme, hc, hr]

lemma splitLastColon_not_mem {l : List Char} (h : (':' : Char) ∉ l) : splitLastColon l = none := by
  have h2 : (':' : Char) ∉ l.reverse := by simpa using h
  simp [splitLastColon, splitFirst_not_mem h2]

lemma splitLastColon_append (pre post : List Char) (hpost : (':' : Char) ∉ post) :
    splitLastColon (pre ++ ':' :: post) = some (pre, post) := by
  have h1 : (pre ++ ':' :: post).reverse = post.reverse ++ ':' :: pre.reverse := by
    simp [List.reverse_append]
  have h2 : (':' : Char) ∉ post.reverse := by simpa using hpost
  simp [splitLastColon, h1, splitFirst_append _ h2]

lemma dropWhile_ws_eq_self {cs : List Char} (h : ∀ c ∈ cs, c.isWhitespace = false) :
    cs.dropWhile Char.isWhitespace = cs := by
  cases cs with
  | nil => rfl
  | cons c rest => simp [List.dropWhile_cons, h c (List.mem_cons_self _ _)]

lemma stripChars_eq_self {cs : List Char} (h : ∀ c ∈ cs, c.isWhitespace = false) :
    stripChars cs = cs := by
  have h2 : ∀ c ∈ cs.reverse, c.isWhitespace = false := fun c hc => h c (List.mem_reverse.mp hc)
  simp [stripChars, dropWhile_ws_eq_self h, dropWhile_ws_eq_self h2]

lemma ws_false_append {l1 l2 : List Char} (h1 : ∀ c ∈ l1, c.isWhitespace = false)
    (h2 : ∀ c ∈ l2, c.isWhitespace = false) : ∀ c ∈ l1 ++ l2, c.isWhitespace = false := by
  intro c hc
  rcases List.mem_append.mp hc with h | h
  exacts [h1 c h, h2 c h]


lemma parse_url_scheme_port (sch : List Char) (hsd : List Char) (pd : List Char) (n : Nat)
    (hsch : (':' : Char) ∉ sch) (hpd : (':' : Char) ∉ pd) (hn : digitsToNat? pd = some n) :
    parse_url (sch ++ ':' :: '/' :: '/' :: (hsd ++ ':' :: pd)) =
      { scheme := some sch, host := hsd, port := some n } := by
  have h1 := findScheme_append sch (hsd ++ ':' :: pd) hsch
  have h2 := splitLastColon_append hsd pd hpd
  simp [parse_url, h1, parseHostPort, h2, hn]

lemma parse_url_noport (sch hsd : List Char) (hsch : (':' : Char) ∉ sch)
    (hnc : (':' : Char) ∉ hsd) :
    parse_url (sch ++ ':' :: '/' :: '/' :: hsd) =
      { scheme := some sch, host := hsd, port := none } := by
  have h1 := findScheme_append sch hsd hsch
  have h2 := splitLastColon_not_mem hnc
  simp [parse_url, h1, parseHostPort, h2]


lemma normalize_of_parsed (address : String) (u : Url)
    (hcss : containsSchemeSep address.data = true)
    (hws : ∀ c ∈ address.data, c.isWhitespace = false)
    (hp : parse_url address.data = u) :
    ConnectionManager.normalize_address address = String.mk (normalizeUrl u).url := by
  simp only [ConnectionManager.normalize_address, hcss, if_true, stripChars_eq_self hws, hp]

lemma normalize_of_parsed_bare (address : String) (u : Url)
    (hcss : containsSchemeSep address.data = false)
    (hws : ∀ c ∈ "http://".data ++ address.data, c.isWhitespace = false)
    (hp : parse_url ("http://".data ++ address.data) = u) :
    ConnectionManager.normalize_address address = String.mk (normalizeUrl u).url := by
  simp only [ConnectionManager.normalize_address, hcss, Bool.false_eq_true, if_false,
    stripChars_eq_self hws, hp]


lemma normalize_address_http80 (hs : String)
    (hch : ∀ c ∈ hs.data, c ≠ ':' ∧ c ≠ '/' ∧ c.isWhitespace = false) :
    ConnectionManager.normalize_address ("http://" ++ hs ++ ":80") = "http://" ++ hs := by
  have e1 : "http://".data = "http".data ++ ([':', '/', '/'] : List Char) := by decide
  have hd : ("http://" ++ hs ++ ":80").data
      = "http://".data ++ (hs.data ++ ":80".data) := by
    rw [String.data_append, String.data_append, List.append_assoc]
  have hshape : "http://".data ++ (hs.data ++ ":80".data)
      = "http".data ++ ':' :: '/' :: '/' :: (hs.data ++ ':' :: ['8', '0']) := by
    rw [e1]
    simp [List.append_assoc]
  have hsws : ∀ c ∈ hs.data, c.isWhitespace = false := fun c hc => (hch c hc).2.2
  have hsnc : (':' : Char) ∉ hs.data := fun hc => ((hch _ hc).1 rfl)
  have hfind := findScheme_append "http".data (hs.data ++ ':' :: ['8', '0']) (by decide)
  have hcss : containsSchemeSep (("http://" ++ hs ++ ":80").data) = true := by
    rw [hd, hshape]
    simp only [containsSchemeSep]
    rw [hfind]
    rfl
  have hws : ∀ c ∈ ("http://" ++ hs ++ ":80").data, c.isWhitespace = false := by
    rw [hd]
    exact ws_false_append (by decide) (ws_false_append hsws (by decide))
  have hp : parse_url (("http://" ++ hs ++ ":80").data)
      = { scheme := some "http".data, host := hs.data, port := some 80 } := by
    rw [hd, hshape]
    exact parse_url_scheme_port "http".data hs.data ['8', '0'] 80 (by decide) (by decide) (by decide)
  rw [normalize_of_parsed _ _ hcss hws hp]
  have hn : normalizeUrl { scheme := some "http".data, host := hs.data, port := some 80 }
      = { scheme := some "http".data, host := hs.data, port := none } := by
    simp [normalizeUrl, httpScheme, httpsScheme]
  rw [hn]
  apply String.ext
  show ("http".data ++ ':' :: '/' :: '/' :: []) ++ hs.data ++ [] = ("http://" ++ hs).data
  rw [String.data_append, e1]
  simp [List.append_assoc]


lemma normalize_address_https443 (hs : String)
    (hch : ∀ c ∈ hs.data, c ≠ ':' ∧ c ≠ '/' ∧ c.isWhitespace = false) :
    ConnectionManager.normalize_address ("https://" ++ hs ++ ":443") = "https://" ++ hs := by
  have e1 : "https://".data = "https".data ++ ([':', '/', '/'] : List Char) := by decide
  have hd : ("https://" ++ hs ++ ":443").data
      = "https://".data ++ (hs.data ++ ":443".data) := by
    rw [String.data_append, String.data_append, List.append_assoc]
  have hshape : "https://".data ++ (hs.data ++ ":443".data)
      = "https".data ++ ':' :: '/' :: '/' :: (hs.data ++ ':' :: ['4', '4', '3']) := by
    rw [e1]
    simp [List.append_assoc]
  have hsws : ∀ c ∈ hs.data, c.isWhitespace = false := fun c hc => (hch c hc).2.2
  have hfind := findScheme_append "https".data (hs.data ++ ':' :: ['4', '4', '3'])
    (by decide)
  have hcss : containsSchemeSep (("https://" ++ hs ++ ":443").data) = true := by
    rw [hd, hshape]
    simp only [containsSchemeSep]
    rw [hfind]
    rfl
  have hws : ∀ c ∈ ("https://" ++ hs ++ ":443").data, c.isWhitespace = false := by
    rw [hd]
    exact ws_false_append (by decide) (ws_false_append hsws (by decide))
  have hp : parse_url (("https://" ++ hs ++ ":443").data)
      = { scheme := some "https".data, host := hs.data, port := some 443 } := by
    rw [hd, hshape]
    exact parse_url_scheme_port "https".data hs.data ['4', '4', '3'] 443
      (by decide) (by decide) (by decide)
  rw [normalize_of_parsed _ _ hcss hws hp]
  have hn : normalizeUrl { scheme := some "https".data, host := hs.data, port := some 443 }
      = { scheme := some "https".data, host := hs.data, port := none } := by
    simp [normalizeUrl, httpScheme, httpsScheme]
  rw [hn]
  apply String.ext
  show ("https".data ++ ':' :: '/' :: '/' :: []) ++ hs.data ++ [] = ("https://" ++ hs).data
  rw [String.data_append, e1]
  simp [List.append_assoc]

lemma normalize_address_bare (hs : String)
    (hch : ∀ c ∈ hs.data, c ≠ ':' ∧ c ≠ '/' ∧ c.isWhitespace = false) :
    ConnectionManager.normalize_address hs = "http://" ++ hs := by
  have e1 : "http://".data = "http".data ++ ([':', '/', '/'] : List Char) := by decide
  have hsws : ∀ c ∈ hs.data, c.isWhitespace = false := fun c hc => (hch c hc).2.2
  have hsnc : (':' : Char) ∉ hs.data := fun hc => ((hch _ hc).1 rfl)
  have hcss : containsSchemeSep hs.data = false := by
    simp only [containsSchemeSep]
    rw [findScheme_not_mem hsnc]
    rfl
  have hws : ∀ c ∈ "http://".data ++ hs.data, c.isWhitespace = false :=
    ws_false_append (by decide) hsws
  have hshape : "http://".data ++ hs.data = "http".data ++ ':' :: '/' :: '/' :: hs.data := by
    rw [e1]
    simp [List.append_assoc]
  have hp : parse_url ("http://".data ++ hs.data)
      = { scheme := some "http".data, host := hs.data, port := none } := by
    rw [hshape]
    exact parse_url_noport "http".data hs.data (by decide) hsnc
  rw [normalize_of_parsed_bare _ _ hcss hws hp]
  have hn : normalizeUrl { scheme := some "http".data, host := hs.data, port := none }
      = { scheme := some "http".data, host := hs.data, port := none } := by
    simp [normalizeUrl, httpScheme, httpsScheme]
  rw [hn]
  apply String.ext
  show ("http".data ++ ':' :: '/' :: '/' :: []) ++ hs.data ++ [] = ("http://" ++ hs).data
  rw [String.data_append, e1]
  simp [List.append_assoc]


/-- A plain host: no colon, no slash, no whitespace — the address grammar the
claim's examples use. -/
abbrev plainHost (h : String) : Prop :=
  ∀ c ∈ h.data, c ≠ ':' ∧ c ≠ '/' ∧ c.isWhitespace = false

/-- C7: `_normalize_address` defaults a missing scheme to `http`, strips an
explicit default port for the scheme, and leaves other ports intact: for any
plain host, `http://host:80` normalizes to `http://host`, `https://host:443`
to `https://host` and a bare `host` to `http://host`; on the parsed URL the
scheme is defaulted to `http` when missing, the host is untouched, a default
scheme/port pair loses its port and any other port is preserved. -/
theorem normalize_address_spec (hs : String) (hp : plainHost hs) (u : Url) :
    ConnectionManager.normalize_address ("http://" ++ hs ++ ":80") = "http://" ++ hs
    ∧ ConnectionManager.normalize_address ("https://" ++ hs ++ ":443") = "https://" ++ hs
    ∧ ConnectionManager.normalize_address hs = "http://" ++ hs
    ∧ (normalizeUrl u).scheme = (if u.scheme = none then some httpScheme else u.scheme)
    ∧ (normalizeUrl u).host = u.host
    ∧ ((if u.scheme = none then some httpScheme else u.scheme) = some httpScheme →
        u.port = some 80 → (normalizeUrl u).port = none)
    ∧ ((if u.scheme = none then some httpScheme else u.scheme) = some httpsScheme →
        u.port = some 443 → (normalizeUrl u).port = none)
    ∧ (¬((if u.scheme = none then some httpScheme else u.scheme) = some httpScheme
          ∧ u.port = some 80) →
       ¬((if u.scheme = none then some httpScheme else u.scheme) = some httpsScheme
          ∧ u.port = some 443) →
       (normalizeUrl u).port = u.port) := by
  have hne : httpScheme ≠ httpsScheme := by decide
  refine ⟨normalize_address_http80 hs hp, normalize_address_https443 hs hp,
    normalize_address_bare hs hp, ?_, ?_, ?_, ?_, ?_⟩
  · by_cases h0 : u.scheme = none <;>
      simp only [normalizeUrl, h0, if_true, if_false] <;>
      split_ifs <;> simp [h0]
  · by_cases h0 : u.scheme = none <;>
      simp only [normalizeUrl, h0, if_true, if_false] <;>
      split_ifs <;> simp
  · intro h1 h2
    by_cases h0 : u.scheme = none
    · simp [normalizeUrl, h0, h2, hne]
    · rw [if_neg h0] at h1
      simp [normalizeUrl, h0, h1, h2, hne]
  · intro h1 h2
    by_cases h0 : u.scheme = none
    · rw [if_pos h0] at h1
      exact absurd (Option.some.inj h1) hne
    · rw [if_neg h0] at h1
      have : ¬ (u.scheme = some httpScheme) := by
        rw [h1]
        simpa using fun e => hne e.symm
      simp [normalizeUrl, h0, h1, h2, this]
  · intro h1 h2
    by_cases h0 : u.scheme = none
    · rw [if_pos h0] at h1 h2
      simp only [normalizeUrl, h0, if_true]
      have hp80 : ¬ u.port = some 80 := fun e => h1 ⟨rfl, e⟩
      split_ifs with hc1 hc2
      all_goals simp_all
    · rw [if_neg h0] at h1 h2
      simp only [normalizeUrl, h0, if_false]
      split_ifs
      all_goals simp_all

/-- Witness for C7 at the concrete host `host` of the spec's examples. -/
theorem normalize_address_spec_witness :
    ConnectionManager.normalize_address ("http://" ++ "host" ++ ":80") = "http://" ++ "host" :=
  (normalize_address_spec "host" (by decide)
    { scheme := none, host := "h".data, port := none }).1

/-! ### Connection validation (`ConnectionManager._after_connect_validated`) -/

def ConnectionState.Unavailable : Nat := 0

def ConnectionState.ServerSelection : Nat := 1

def ConnectionState.ServerSignIn : Nat := 2

def ConnectionState.SignedIn : Nat := 3

/-- A server record as touched by the validation sub-protocol. -/
structure Server where
  Name : Option String
  Id : Option String
  address : Option String
  AccessToken : Option String
  UserId : Option String
  DateLastAccessed : Option String
deriving DecidableEq, Repr

/-- The system-info document returned by the public-info and validation
probes. -/
structure SystemInfo where
  ServerName : String
  Id : String
  address : Option String
deriving DecidableEq, Repr

/-- The config entries the sub-protocol writes (`auth.user_id`,
`auth.token`). -/
structure Config where
  user_id : Option String
  token : Option String
deriving DecidableEq, Repr

/-- Python truthiness of an optional string: `None` and `""` are falsy. -/
def truthy : Option String → Bool
  | none => false
  | some s => s ≠ ""

/-- `ConnectionManager._update_server_info`: copy name and id from the probe
response, and the address when the response advertises one. -/
def update_server_info (server : Server) (info : SystemInfo) : Server :=
  let server := { server with Name := some info.ServerName, Id := some info.Id }
  if truthy info.address then { server with address := info.address } else server

/-- Modelled from the spec: `Credentials.add_update_server` — `credentials.py`
is not among the sources.  A candidate with an unknown `Id` is appended; when
a record with the same `Id` exists, the candidate is discarded if the
existing record's `DateLastAccessed` is newer or equal, and otherwise the
existing record is replaced by the candidate's fields (all fields modelled
here lie in the spec's allowed set) restamped to `now` (ISO-8601 timestamps
compare lexicographically). -/
def add_update_server (servers : List Server) (candidate : Server) (now : String) :
    List Server :=
  if servers.any fun s => s.Id = candidate.Id then
    servers.map fun s =>
      if s.Id = candidate.Id then
        if candidate.DateLastAccessed.getD "" ≤ s.DateLastAccessed.getD "" then s
        else { candidate with DateLastAccessed := some now }
      else s
  else servers ++ [candidate]

/-- What `_after_connect_validated` leaves behind: the returned result (state
and servers list), the mutated server record, the credentials, the config and
the negotiator's active server id. -/
structure AfterConnectOutcome where
  result_state : Nat
  result_servers : List Server
  server : Server
  credentials : List Server
  config : Config
  server_id : Option String
deriving DecidableEq, Repr

/-- The final section of `_after_connect_validated` (`connection_manager.py`
lines 353-372): refresh the server info, stamp `DateLastAccessed`, merge the
record into the credentials, set the active server id, and answer `SignedIn`
when an access token is present, `ServerSignIn` otherwise. -/
def after_connect_finalize (server : Server) (credentials : List Server)
    (system_info : SystemInfo) (config : Config) (now : String) : AfterConnectOutcome :=
  let server := update_server_info server system_info
  let server := { server with DateLastAccessed := some now }
  let credentials := add_update_server credentials server now
  { result_state :=
      if truthy server.AccessToken then ConnectionState.SignedIn
      else ConnectionState.ServerSignIn
    result_servers := [server]
    server := server
    credentials := credentials
    config := config
    server_id := server.Id }

/-- `ConnectionManager._after_connect_validated` (lines 333-372).
`validation` is the outcome of `API.validate_authentication_token` (`none`
models the empty dict it returns on failure).  The recursive call made on
successful validation passes `verify = False` and unchanged options, so with
auto-login not disabled it runs exactly the final section; it is therefore
embedded as a direct call to `after_connect_finalize`. -/
def after_connect_validated (enableAutoLogin : Option Bool) (verify : Bool)
    (validation : Option SystemInfo) (server : Server) (credentials : List Server)
    (system_info : SystemInfo) (config : Config) (now : String) (sid : Option String) :
    AfterConnectOutcome :=
  if enableAutoLogin = some false then
    let config := { config with user_id := server.UserId, token := server.AccessToken }
    let server := { server with UserId := none, AccessToken := none }
    after_connect_finalize server credentials system_info config now
  else if verify && truthy server.AccessToken then
    match validation with
    | some info =>
      let server := update_server_info server info
      let config := { config with user_id := server.UserId, token := server.AccessToken }
      after_connect_finalize server credentials info config now
    | none =>
      { result_state := ConnectionState.Unavailable
        result_servers := []
        server := { server with UserId := none, AccessToken := none }
        credentials := credentials
        config := config
        server_id := sid }
  else
    after_connect_finalize server credentials system_info config now

lemma update_server_info_AccessToken (server : Server) (info : SystemInfo) :
    (update_server_info server info).AccessToken = server.AccessToken := by
  simp only [update_server_info]
  split_ifs
  all_goals rfl

/-- C8: in the validation sub-protocol with auto-login not disabled and a
stored access token present, a failed validation probe clears the token and
user id on the server record and yields `Unavailable` — never `ServerSignIn`
for that attempt — while a successful validation (which recurses once with
verification disabled) finalizes as `SignedIn`. -/
theorem stale_token_terminal (auto : Option Bool) (server : Server)
    (credentials : List Server) (system_info info : SystemInfo) (config : Config)
    (now : String) (sid : Option String)
    (hauto : auto ≠ some false) (htok : truthy server.AccessToken = true) :
    ((after_connect_validated auto true none server credentials system_info config now
          sid).result_state = ConnectionState.Unavailable
      ∧ (after_connect_validated auto true none server credentials system_info config now
          sid).server.AccessToken = none
      ∧ (after_connect_validated auto true none server credentials system_info config now
          sid).server.UserId = none
      ∧ (after_connect_validated auto true none server credentials system_info config now
          sid).result_state ≠ ConnectionState.ServerSignIn)
    ∧ (after_connect_validated auto true (some info) server credentials system_info config now
        sid).result_state = ConnectionState.SignedIn := by
  constructor
  · simp [after_connect_validated, hauto, htok, ConnectionState.Unavailable,
      ConnectionState.ServerSignIn]
  · simp [after_connect_validated, hauto, htok, after_connect_finalize,
      update_server_info_AccessToken, ConnectionState.SignedIn]

/-- Witness for C8 at a concrete server record carrying a token. -/
theorem stale_token_terminal_witness :
    (after_connect_validated none true none
      { Name := none, Id := some "s1", address := some "http://host",
        AccessToken := some "tok", UserId := some "u1", DateLastAccessed := none }
      [] { ServerName := "srv", Id := "s1", address := none }
      { user_id := none, token := none } "2026-01-01T00:00:00Z" none).result_state
      = ConnectionState.Unavailable :=
  (stale_token_terminal none
    { Name := none, Id := some "s1", address := some "http://host",
      AccessToken := some "tok", UserId := some "u1", DateLastAccessed := none }
    [] { ServerName := "srv", Id := "s1", address := none }
    { ServerName := "srv", Id := "s1", address := none }
    { user_id := none, token := none } "2026-01-01T00:00:00Z" none
    (by decide) (by decide)).1.1

end Jellyfin
